import Mathlib

/-!
Verification of the dog-DNA parentage analyzer
(`scripts/dog_parentage_analysis.py`).

The embedding models Python strings as `List Char` (`PyStr`), spreadsheet
cells as `Option PyStr` (`none` models a NaN / missing cell), Python's
`sorted` on strings as a stable insertion sort over code-point
lexicographic order, and Python float arithmetic on the consistency rate
as exact rational arithmetic (`ℚ`).  The diagnostic detail strings the
script builds for reporting are presentation-only and are not modelled.
-/

/-- Model of a Python string: a list of characters. -/
abbrev PyStr : Type := List Char

/-- Model of a spreadsheet cell holding a raw genotype: `none` models a
missing value (NaN), for which `pd.isna` is true. -/
abbrev RawCell : Type := Option PyStr

/-- A parsed genotype as produced by `parse_genotype`: the Python list of
allele strings returned by `sorted(...)`. -/
abbrev Genotype : Type := List PyStr

/-- Marker identifiers, modelled as naturals (the script only compares and
sorts them). -/
abbrev MarkerID : Type := Nat

/-- Python `<` on strings: lexicographic comparison by code point. -/
def lexLt : PyStr → PyStr → Bool
  | [], [] => false
  | [], _ :: _ => true
  | _ :: _, [] => false
  | a :: as, b :: bs => if a < b then true else if b < a then false else lexLt as bs

/-- Stable insertion of `x` into a list already sorted by `lt`: `x` is
placed before the first element not strictly below it. -/
def insertBy {α : Type} (lt : α → α → Bool) (x : α) : List α → List α
  | [] => [x]
  | y :: ys => if lt y x then y :: insertBy lt x ys else x :: y :: ys

/-- Stable insertion sort by `lt`; models Python's stable `sorted`. -/
def sortBy {α : Type} (lt : α → α → Bool) : List α → List α
  | [] => []
  | x :: xs => insertBy lt x (sortBy lt xs)

/-- Python `sorted` on a list of allele strings. -/
def pySort : Genotype → Genotype := sortBy lexLt

/-- Python `str.strip()`: drop whitespace from both ends. -/
def pyStrip (s : PyStr) : PyStr :=
  (s.dropWhile Char.isWhitespace).rdropWhile Char.isWhitespace

/-- Python `str.split(c)` for a one-character separator: split at every
occurrence of `c`, keeping empty pieces. -/
def splitChar (c : Char) : List Char → List (List Char)
  | [] => [[]]
  | x :: xs =>
    if x = c then
      [] :: splitChar c xs
    else
      match splitChar c xs with
      | [] => [[x]]
      | t :: ts => (x :: t) :: ts

/-- Embedding of `DogDNAParentageAnalyzer.parse_genotype`.  The input is a
raw cell (`none` = NaN).  Mirrors the source: NaN or the empty string give
`None`; otherwise the string is stripped, split on `/` if present, else on
`|` if present, else duplicated (homozygous fallback); each allele is
stripped and the list is sorted. -/
def parse_genotype : RawCell → Option Genotype
  | none => none
  | some s =>
    if s = [] then none
    else
      let t := pyStrip s
      let alleles :=
        if '/' ∈ t then splitChar '/' t
        else if '|' ∈ t then splitChar '|' t
        else [t, t]
      some (pySort (alleles.map pyStrip))

/-- The list of Mendelian-possible offspring genotypes built by
`check_mendelian_inheritance`: `sorted([a, b])` for each `a` in `parent1`
and `b` in `parent2`, in loop order. -/
def possibleOffspring (p1 p2 : Genotype) : List Genotype :=
  p1.foldr (fun a acc => (p2.map fun b => pySort [a, b]) ++ acc) []

/-- Embedding of `check_mendelian_inheritance` (boolean component).  The
guard `if not all([...])` is falsy exactly on the empty list here, since
the `None` case is handled by the caller's own guard in the analysis loop.
The returned diagnostic string is presentation-only and not modelled. -/
def check_mendelian_inheritance (p1 p2 off : Genotype) : Bool :=
  if p1 = [] ∨ p2 = [] ∨ off = [] then false
  else decide (pySort off ∈ possibleOffspring p1 p2)

/-- One loaded profile: the rows of the cleaned data frame, as
(MarkerID, raw genotype cell) pairs. -/
structure Profile where
  rows : List (MarkerID × RawCell)
deriving DecidableEq

/-- The MarkerID column of a profile. -/
def Profile.markers (p : Profile) : List MarkerID := p.rows.map Prod.fst

/-- Lookup in the dictionary built by `set_index('MarkerID')['Genotype'].to_dict()`:
on duplicate marker ids the last row wins.  Callers only use keys present
in the profile, so the `none` fallback is unreachable there. -/
def Profile.get (p : Profile) (k : MarkerID) : RawCell :=
  match p.rows.reverse.lookup k with
  | some c => c
  | none => none

/-- Python `sorted(set(...))` over the intersection of the three marker
sets: the distinct common marker ids in ascending order. -/
def commonMarkers (m f o : Profile) : List MarkerID :=
  sortBy (fun a b => decide (a < b))
    ((m.markers.filter fun k => decide (k ∈ f.markers) && decide (k ∈ o.markers)).dedup)

/-- One evaluated marker (the dict appended to `marker_details`); the
diagnostic `details` string is not modelled. -/
structure MarkerResult where
  marker : MarkerID
  mother : Genotype
  father : Genotype
  offspring : Genotype
  consistent : Bool
deriving DecidableEq

/-- The mutable counters and lists the analysis loop accumulates. -/
structure Accumulator where
  testable : Nat
  consistent : Nat
  inconsistent : Nat
  details : List MarkerResult
  exclusions : List MarkerResult
deriving DecidableEq

/-- One iteration of the marker loop in `analyze_parentage`: parse the
three genotypes, skip the marker when any parsed value is falsy (`None`
or an empty list), otherwise run the Mendelian check and update the
counters and lists. -/
def stepMarker (m f o : Profile) (acc : Accumulator) (k : MarkerID) : Accumulator :=
  match parse_genotype (m.get k), parse_genotype (f.get k), parse_genotype (o.get k) with
  | some g1, some g2, some g3 =>
    if g1 = [] ∨ g2 = [] ∨ g3 = [] then acc
    else
      let c := check_mendelian_inheritance g1 g2 g3
      let r : MarkerResult := ⟨k, g1, g2, g3, c⟩
      { testable := acc.testable + 1
        consistent := acc.consistent + (if c then 1 else 0)
        inconsistent := acc.inconsistent + (if c then 0 else 1)
        details := acc.details ++ [r]
        exclusions := acc.exclusions ++ (if c then [] else [r]) }
  | _, _, _ => acc

/-- The confidence ladder of `analyze_parentage` (first matching rule
wins), as a function of the inconsistent and consistent counts. -/
def confidenceLevel (i c : Nat) : String :=
  if i = 0 ∧ 20 ≤ c then "Very High"
  else if i ≤ 1 ∧ 15 ≤ c then "High"
  else if i ≤ 2 ∧ 10 ≤ c then "Moderate"
  else "Low"

/-- The four final conclusions printed by `analyze_parentage`. -/
inductive Conclusion : Type
  | confirmed
  | likely
  | excluded
  | inconclusive
deriving DecidableEq

/-- The conclusion ladder of `analyze_parentage` (first matching rule
wins), as a function of the inconsistent and consistent counts. -/
def parentageConclusion (i c : Nat) : Conclusion :=
  if i = 0 ∧ 15 ≤ c then Conclusion.confirmed
  else if i ≤ 2 ∧ 10 ≤ c then Conclusion.likely
  else if c < i then Conclusion.excluded
  else Conclusion.inconclusive

/-- The aggregate result dict built by `analyze_parentage` (report-only
fields aside).  Python's float `consistency_rate` is modelled by `ℚ`. -/
structure AnalysisResult where
  total_common_markers : Nat
  testable_markers : Nat
  consistent_markers : Nat
  inconsistent_markers : Nat
  exclusions : List MarkerResult
  marker_details : List MarkerResult
  consistency_rate : ℚ
  confidence_level : String

/-- The whole marker-evaluation and aggregation pass of
`analyze_parentage`, given the three profiles. -/
def computeResult (m f o : Profile) : AnalysisResult :=
  let common := commonMarkers m f o
  let acc := common.foldl (stepMarker m f o) ⟨0, 0, 0, [], []⟩
  { total_common_markers := common.length
    testable_markers := acc.testable
    consistent_markers := acc.consistent
    inconsistent_markers := acc.inconsistent
    exclusions := acc.exclusions
    marker_details := acc.details
    consistency_rate :=
      if 0 < acc.testable then (acc.consistent : ℚ) / (acc.testable : ℚ) * 100 else 0
    confidence_level := confidenceLevel acc.inconsistent acc.consistent }

/-- The analyzer object: its `profiles` dict (association list keyed by
dog name) and its `analysis_results` attribute. -/
structure Analyzer where
  profiles : List (String × Profile)
  analysis_results : Option AnalysisResult

/-- Embedding of `analyze_parentage`: if any of the three named profiles
is not loaded, return `None` and leave the analyzer unchanged; otherwise
compute the result, store it in `analysis_results` and return it. -/
def analyze_parentage (a : Analyzer) (mName fName oName : String) :
    Analyzer × Option AnalysisResult :=
  match a.profiles.lookup mName, a.profiles.lookup fName, a.profiles.lookup oName with
  | some mp, some fp, some op =>
    let r := computeResult mp fp op
    ({ a with analysis_results := some r }, some r)
  | _, _, _ => (a, none)

/-- Invariant maintained by the analysis loop accumulator. -/
def AccInv (acc : Accumulator) : Prop :=
  acc.testable = acc.consistent + acc.inconsistent ∧
  acc.details.length = acc.testable ∧
  acc.exclusions.length = acc.inconsistent ∧
  ∀ e ∈ acc.exclusions, e.consistent = false ∧ e ∈ acc.details

lemma lexLt_irrefl (x : PyStr) : lexLt x x = false := by
  induction x with
  | nil => rfl
  | cons a as ih => simp [lexLt, ih]

lemma lexLt_asymm : ∀ x y : PyStr, lexLt x y = true → lexLt y x = false := by
  intro x
  induction x with
  | nil =>
    intro y h
    cases y with
    | nil => simp [lexLt] at h
    | cons b bs => simp [lexLt]
  | cons a as ih =>
    intro y h
    cases y with
    | nil => simp [lexLt] at h
    | cons b bs =>
      simp only [lexLt] at h ⊢
      rcases lt_trichotomy a b with hab | hab | hab
      · simp [hab, asymm hab, not_lt.mpr hab.le]
      · subst hab
        simp only [lt_irrefl, if_false] at h ⊢
        exact ih bs h
      · simp [hab, asymm hab] at h

lemma lexLt_eq_of_not_lt {x y : PyStr} (hxy : lexLt x y = false)
    (hyx : lexLt y x = false) : x = y := by
  induction x generalizing y with
  | nil =>
    cases y with
    | nil => rfl
    | cons b bs => simp [lexLt] at hxy
  | cons a as ih =>
    cases y with
    | nil => simp [lexLt] at hyx
    | cons b bs =>
      simp only [lexLt] at hxy hyx
      rcases lt_trichotomy a b with hab | hab | hab
      · simp [hab] at hxy
      · subst hab
        simp only [lt_irrefl, if_false] at hxy hyx
        rw [ih hxy hyx]
      · simp [hab] at hyx

lemma pySort_pair (x y : PyStr) :
    pySort [x, y] = if lexLt y x then [y, x] else [x, y] := by
  simp [pySort, sortBy, insertBy]

lemma pySort_pair_swap (x y : PyStr) : pySort [x, y] = pySort [y, x] := by
  rw [pySort_pair, pySort_pair]
  cases hxy : lexLt x y <;> cases hyx : lexLt y x <;> simp
  · simp [lexLt_eq_of_not_lt hxy hyx]
  · exact absurd (lexLt_asymm x y hxy) (by simp [hyx])

lemma pySort_pair_self (x : PyStr) : pySort [x, x] = [x, x] := by
  rw [pySort_pair, lexLt_irrefl]
  simp

lemma mem_pyStrip {x : Char} {s : PyStr} (hx : x ∈ pyStrip s) : x ∈ s := by
  unfold pyStrip List.rdropWhile at hx
  rw [List.mem_reverse] at hx
  have h2 := (List.dropWhile_sublist _).subset hx
  rw [List.mem_reverse] at h2
  exact (List.dropWhile_sublist _).subset h2

lemma rdropWhile_cons_of_neg {α : Type} (p : α → Bool) (x : α) (hx : ¬ p x)
    (xs : List α) : List.rdropWhile p (x :: xs) = x :: List.rdropWhile p xs := by
  rw [List.rdropWhile, List.reverse_cons, List.dropWhile_append]
  split_ifs with h
  · have h' : List.dropWhile p xs.reverse = [] := by simpa [List.isEmpty_iff] using h
    simp [List.rdropWhile, h', List.dropWhile_cons_of_neg hx]
  · simp [List.rdropWhile]

lemma dropWhile_append_cons {α : Type} (p : α → Bool) (c : α) (hc : ¬ p c)
    (a b : List α) : List.dropWhile p (a ++ c :: b) = List.dropWhile p a ++ c :: b := by
  rw [List.dropWhile_append]
  split_ifs with h
  · have h' : List.dropWhile p a = [] := by simpa [List.isEmpty_iff] using h
    rw [h', List.dropWhile_cons_of_neg hc, List.nil_append]
  · rfl

lemma rdropWhile_append_cons {α : Type} (p : α → Bool) (c : α) (hc : ¬ p c)
    (a b : List α) : List.rdropWhile p (a ++ c :: b) = a ++ c :: List.rdropWhile p b := by
  rw [List.rdropWhile, List.reverse_append, List.reverse_cons, List.append_assoc,
    List.singleton_append, dropWhile_append_cons p c hc]
  simp [List.rdropWhile]

lemma pyStrip_append_cons {c : Char} (hc : ¬ Char.isWhitespace c) (a b : PyStr) :
    pyStrip (a ++ c :: b) =
      List.dropWhile Char.isWhitespace a ++ c :: List.rdropWhile Char.isWhitespace b := by
  unfold pyStrip
  rw [dropWhile_append_cons _ c hc, rdropWhile_append_cons _ c hc]

lemma pyStrip_dropWhile (a : PyStr) :
    pyStrip (List.dropWhile Char.isWhitespace a) = pyStrip a := by
  unfold pyStrip
  rw [List.dropWhile_idempotent]

lemma pyStrip_rdropWhile (b : PyStr) :
    pyStrip (List.rdropWhile Char.isWhitespace b) = pyStrip b := by
  rcases hd : List.dropWhile Char.isWhitespace b with _ | ⟨x, xs⟩
  · have hall : ∀ y ∈ b, Char.isWhitespace y := List.dropWhile_eq_nil_iff.mp hd
    have h1 : List.rdropWhile Char.isWhitespace b = [] :=
      List.rdropWhile_eq_nil_iff.mpr hall
    rw [h1]
    unfold pyStrip
    rw [hd]
    simp [List.rdropWhile]
  · have hx : ¬ Char.isWhitespace x := by
      have h1 := List.head?_dropWhile_not Char.isWhitespace b
      rw [hd] at h1
      simp only [List.head?_cons] at h1
      simp [h1]
    have hb := List.takeWhile_append_dropWhile Char.isWhitespace b
    rw [hd] at hb
    have hws : List.dropWhile Char.isWhitespace
        (List.takeWhile Char.isWhitespace b) = [] :=
      List.dropWhile_eq_nil_iff.mpr fun y hy => List.mem_takeWhile_imp hy
    calc pyStrip (List.rdropWhile Char.isWhitespace b)
        = pyStrip (List.rdropWhile Char.isWhitespace
            (List.takeWhile Char.isWhitespace b ++ x :: xs)) := by rw [hb]
      _ = pyStrip (List.takeWhile Char.isWhitespace b ++
            x :: List.rdropWhile Char.isWhitespace xs) := by
          rw [rdropWhile_append_cons _ x hx]
      _ = List.dropWhile Char.isWhitespace (List.takeWhile Char.isWhitespace b) ++
            x :: List.rdropWhile Char.isWhitespace
              (List.rdropWhile Char.isWhitespace xs) := pyStrip_append_cons hx _ _
      _ = x :: List.rdropWhile Char.isWhitespace xs := by
          rw [hws, List.rdropWhile_idempotent, List.nil_append]
      _ = List.dropWhile Char.isWhitespace (List.takeWhile Char.isWhitespace b) ++
            x :: List.rdropWhile Char.isWhitespace xs := by rw [hws, List.nil_append]
      _ = pyStrip (List.takeWhile Char.isWhitespace b ++ x :: xs) :=
          (pyStrip_append_cons hx _ _).symm
      _ = pyStrip b := by rw [hb]

lemma pyStrip_idem (s : PyStr) : pyStrip (pyStrip s) = pyStrip s := by
  show pyStrip (List.rdropWhile Char.isWhitespace
    (List.dropWhile Char.isWhitespace s)) = pyStrip s
  rw [pyStrip_rdropWhile, pyStrip_dropWhile]

lemma splitChar_of_not_mem {c : Char} {l : List Char} (h : c ∉ l) :
    splitChar c l = [l] := by
  induction l with
  | nil => rfl
  | cons x xs ih =>
    have hxc : ¬ x = c := by
      rintro rfl
      exact h (List.mem_cons_self _ _)
    have h' : c ∉ xs := fun hm => h (List.mem_cons_of_mem _ hm)
    simp [splitChar, hxc, ih h']

lemma splitChar_append {c : Char} {a : List Char} (h : c ∉ a) (b : List Char) :
    splitChar c (a ++ c :: b) = a :: splitChar c b := by
  induction a with
  | nil => simp [splitChar]
  | cons x xs ih =>
    have hxc : ¬ x = c := by
      rintro rfl
      exact h (List.mem_cons_self _ _)
    have h' : c ∉ xs := fun hm => h (List.mem_cons_of_mem _ hm)
    simp [splitChar, hxc, ih h']

lemma mem_rdropWhile {α : Type} {p : α → Bool} {x : α} {l : List α}
    (hx : x ∈ List.rdropWhile p l) : x ∈ l := by
  unfold List.rdropWhile at hx
  rw [List.mem_reverse] at hx
  have h2 := (List.dropWhile_sublist _).subset hx
  rwa [List.mem_reverse] at h2

lemma parse_append_slash (a b : PyStr) (ha : '/' ∉ a) (hb : '/' ∉ b) :
    parse_genotype (some (a ++ '/' :: b)) = some (pySort [pyStrip a, pyStrip b]) := by
  have hcw : ¬ Char.isWhitespace '/' := by decide
  have hne : a ++ '/' :: b ≠ [] := by simp
  have hla : '/' ∉ List.dropWhile Char.isWhitespace a := fun hm =>
    ha ((List.dropWhile_sublist _).subset hm)
  have hrb : '/' ∉ List.rdropWhile Char.isWhitespace b := fun hm =>
    hb (mem_rdropWhile hm)
  have hmem : '/' ∈ List.dropWhile Char.isWhitespace a ++
      '/' :: List.rdropWhile Char.isWhitespace b := by simp
  simp only [parse_genotype]
  rw [if_neg hne, pyStrip_append_cons hcw, if_pos hmem, splitChar_append hla,
    splitChar_of_not_mem hrb]
  simp only [List.map_cons, List.map_nil]
  rw [pyStrip_dropWhile, pyStrip_rdropWhile]

lemma parse_append_bar (a b : PyStr) (ha : '/' ∉ a) (ha2 : '|' ∉ a)
    (hb : '/' ∉ b) (hb2 : '|' ∉ b) :
    parse_genotype (some (a ++ '|' :: b)) = some (pySort [pyStrip a, pyStrip b]) := by
  have hcw : ¬ Char.isWhitespace '|' := by decide
  have hne : a ++ '|' :: b ≠ [] := by simp
  have hla : '/' ∉ List.dropWhile Char.isWhitespace a := fun hm =>
    ha ((List.dropWhile_sublist _).subset hm)
  have hrb : '/' ∉ List.rdropWhile Char.isWhitespace b := fun hm =>
    hb (mem_rdropWhile hm)
  have hla2 : '|' ∉ List.dropWhile Char.isWhitespace a := fun hm =>
    ha2 ((List.dropWhile_sublist _).subset hm)
  have hrb2 : '|' ∉ List.rdropWhile Char.isWhitespace b := fun hm =>
    hb2 (mem_rdropWhile hm)
  have hnmem : '/' ∉ List.dropWhile Char.isWhitespace a ++
      '|' :: List.rdropWhile Char.isWhitespace b := by
    simp only [List.mem_append, List.mem_cons]
    rintro (hm | hm | hm)
    · exact hla hm
    · exact absurd hm (by decide)
    · exact hrb hm
  have hmem : '|' ∈ List.dropWhile Char.isWhitespace a ++
      '|' :: List.rdropWhile Char.isWhitespace b := by simp
  simp only [parse_genotype]
  rw [if_neg hne, pyStrip_append_cons hcw, if_neg hnmem, if_pos hmem,
    splitChar_append hla2, splitChar_of_not_mem hrb2]
  simp only [List.map_cons, List.map_nil]
  rw [pyStrip_dropWhile, pyStrip_rdropWhile]

/-- C1: for canonical two-allele parental genotypes and a canonical
(sorted) offspring pair, `check_mendelian_inheritance` returns true
exactly when the offspring pair equals `sorted([x, y])` for some allele
`x` of parent 1 and some allele `y` of parent 2. -/
theorem mendelian_check_iff (a₁ a₂ b₁ b₂ c₁ c₂ : PyStr)
    (hoff : pySort [c₁, c₂] = [c₁, c₂]) :
    check_mendelian_inheritance [a₁, a₂] [b₁, b₂] [c₁, c₂] = true ↔
      ∃ x ∈ [a₁, a₂], ∃ y ∈ [b₁, b₂], [c₁, c₂] = pySort [x, y] := by
  unfold check_mendelian_inheritance possibleOffspring
  rw [if_neg (by simp)]
  rw [hoff, decide_eq_true_iff]
  simp only [List.foldr_cons, List.foldr_nil, List.map_cons, List.map_nil,
    List.append_nil, List.cons_append, List.nil_append, List.mem_cons,
    List.not_mem_nil, or_false]
  constructor
  · rintro (h | h | h | h)
    · exact ⟨a₁, by simp, b₁, by simp, h⟩
    · exact ⟨a₁, by simp, b₂, by simp, h⟩
    · exact ⟨a₂, by simp, b₁, by simp, h⟩
    · exact ⟨a₂, by simp, b₂, by simp, h⟩
  · rintro ⟨x, hx, y, hy, hxy⟩
    rcases hx with rfl | rfl <;> rcases hy with rfl | rfl <;> tauto

/-- Witness for C1 at the spec's scenario A: mother `A/B`, father `A/C`,
offspring `B/C`. -/
theorem mendelian_check_iff_witness :
    check_mendelian_inheritance [['A'], ['B']] [['A'], ['C']] [['B'], ['C']] = true ↔
      ∃ x ∈ [['A'], ['B']], ∃ y ∈ [['A'], ['C']],
        ([['B'], ['C']] : Genotype) = pySort [x, y] :=
  mendelian_check_iff ['A'] ['B'] ['A'] ['C'] ['B'] ['C'] (by decide)

/-- C2: the conclusion is decided by the first matching rule of the exact
precedence `i = 0 ∧ c ≥ 15` → Confirmed, else `i ≤ 2 ∧ c ≥ 10` → Likely,
else `i > c` → Excluded, else Inconclusive; in particular `c = 18, i = 0`
is Confirmed and `c = 8, i = 12` is Excluded. -/
theorem conclusion_ladder (c i : Nat) :
    (parentageConclusion i c = Conclusion.confirmed ↔ i = 0 ∧ 15 ≤ c) ∧
    (parentageConclusion i c = Conclusion.likely ↔
      ¬(i = 0 ∧ 15 ≤ c) ∧ i ≤ 2 ∧ 10 ≤ c) ∧
    (parentageConclusion i c = Conclusion.excluded ↔
      ¬(i = 0 ∧ 15 ≤ c) ∧ ¬(i ≤ 2 ∧ 10 ≤ c) ∧ c < i) ∧
    (parentageConclusion i c = Conclusion.inconclusive ↔
      ¬(i = 0 ∧ 15 ≤ c) ∧ ¬(i ≤ 2 ∧ 10 ≤ c) ∧ ¬(c < i)) ∧
    parentageConclusion 0 18 = Conclusion.confirmed ∧
    parentageConclusion 12 8 = Conclusion.excluded := by
  refine ⟨?_, ?_, ?_, ?_, by decide, by decide⟩ <;>
    (unfold parentageConclusion; split_ifs with h1 h2 h3 <;> simp_all)

/-- Witness for C2 at `c = 18, i = 0`. -/
theorem conclusion_ladder_witness :
    (parentageConclusion 0 18 = Conclusion.confirmed ↔ 0 = 0 ∧ 15 ≤ 18) ∧
    (parentageConclusion 0 18 = Conclusion.likely ↔
      ¬(0 = 0 ∧ 15 ≤ 18) ∧ 0 ≤ 2 ∧ 10 ≤ 18) ∧
    (parentageConclusion 0 18 = Conclusion.excluded ↔
      ¬(0 = 0 ∧ 15 ≤ 18) ∧ ¬(0 ≤ 2 ∧ 10 ≤ 18) ∧ 18 < 0) ∧
    (parentageConclusion 0 18 = Conclusion.inconclusive ↔
      ¬(0 = 0 ∧ 15 ≤ 18) ∧ ¬(0 ≤ 2 ∧ 10 ≤ 18) ∧ ¬(18 < 0)) ∧
    parentageConclusion 0 18 = Conclusion.confirmed ∧
    parentageConclusion 12 8 = Conclusion.excluded :=
  conclusion_ladder 18 0

/-- C3: the confidence level is decided by the first matching rule of the
exact precedence `i = 0 ∧ c ≥ 20` → Very High, else `i ≤ 1 ∧ c ≥ 15` →
High, else `i ≤ 2 ∧ c ≥ 10` → Moderate, else Low; the boundary sits at
exactly 20 consistent markers for Very High. -/
theorem confidence_ladder (c i : Nat) :
    (confidenceLevel i c = "Very High" ↔ i = 0 ∧ 20 ≤ c) ∧
    (confidenceLevel i c = "High" ↔ ¬(i = 0 ∧ 20 ≤ c) ∧ i ≤ 1 ∧ 15 ≤ c) ∧
    (confidenceLevel i c = "Moderate" ↔
      ¬(i = 0 ∧ 20 ≤ c) ∧ ¬(i ≤ 1 ∧ 15 ≤ c) ∧ i ≤ 2 ∧ 10 ≤ c) ∧
    (confidenceLevel i c = "Low" ↔
      ¬(i = 0 ∧ 20 ≤ c) ∧ ¬(i ≤ 1 ∧ 15 ≤ c) ∧ ¬(i ≤ 2 ∧ 10 ≤ c)) ∧
    confidenceLevel 0 20 = "Very High" ∧ confidenceLevel 0 19 = "High" := by
  refine ⟨?_, ?_, ?_, ?_, by decide, by decide⟩ <;>
    (unfold confidenceLevel; split_ifs with h1 h2 h3 <;> simp_all)

/-- Witness for C3 at the Very High boundary `c = 20, i = 0`. -/
theorem confidence_ladder_witness :
    (confidenceLevel 0 20 = "Very High" ↔ 0 = 0 ∧ 20 ≤ 20) ∧
    (confidenceLevel 0 20 = "High" ↔ ¬(0 = 0 ∧ 20 ≤ 20) ∧ 0 ≤ 1 ∧ 15 ≤ 20) ∧
    (confidenceLevel 0 20 = "Moderate" ↔
      ¬(0 = 0 ∧ 20 ≤ 20) ∧ ¬(0 ≤ 1 ∧ 15 ≤ 20) ∧ 0 ≤ 2 ∧ 10 ≤ 20) ∧
    (confidenceLevel 0 20 = "Low" ↔
      ¬(0 = 0 ∧ 20 ≤ 20) ∧ ¬(0 ≤ 1 ∧ 15 ≤ 20) ∧ ¬(0 ≤ 2 ∧ 10 ≤ 20)) ∧
    confidenceLevel 0 20 = "Very High" ∧ confidenceLevel 0 19 = "High" :=
  confidence_ladder 20 0

/-- C5 counterexample: on the all-whitespace one-space string,
`parse_genotype` does not return `None`; it returns the homozygous
genotype of two empty-string alleles (the empty-string test runs before
stripping). -/
theorem parse_whitespace_counterexample :
    parse_genotype (some [' ']) = some [[], []] ∧
      parse_genotype (some [' ']) ≠ none := by
  decide

/-- C5 (amended): `parse_genotype` returns `None` exactly for a missing
(NaN) value and for the empty string; a non-empty all-whitespace string is
not rejected — it parses to the genotype of two empty alleles (and no
exception is raised anywhere). -/
theorem parse_unusable_values (s : PyStr) (hws : ∀ c ∈ s, Char.isWhitespace c) :
    parse_genotype none = none ∧
    parse_genotype (some []) = none ∧
    (s ≠ [] → parse_genotype (some s) = some [[], []]) := by
  refine ⟨rfl, rfl, fun h0 => ?_⟩
  have ht : pyStrip s = [] := by
    unfold pyStrip
    rw [List.dropWhile_eq_nil_iff.mpr hws]
    simp [List.rdropWhile]
  simp only [parse_genotype]
  rw [if_neg h0, ht]
  decide

/-- Witness for the amended C5 at the two-space string. -/
theorem parse_unusable_values_witness :
    parse_genotype none = none ∧
    parse_genotype (some []) = none ∧
    (([' ', ' '] : PyStr) ≠ [] → parse_genotype (some [' ', ' ']) = some [[], []]) :=
  parse_unusable_values [' ', ' '] (by decide)

/-- C6: joining two separator-free allele tokens in either order with
either separator (`/` or `|`) parses to the identical canonical genotype:
the two trimmed tokens in sorted order. -/
theorem parse_canonicalization (a b : PyStr) (ha : '/' ∉ a) (ha2 : '|' ∉ a)
    (hb : '/' ∉ b) (hb2 : '|' ∉ b) :
    parse_genotype (some (a ++ '/' :: b)) = some (pySort [pyStrip a, pyStrip b]) ∧
    parse_genotype (some (b ++ '/' :: a)) = some (pySort [pyStrip a, pyStrip b]) ∧
    parse_genotype (some (a ++ '|' :: b)) = some (pySort [pyStrip a, pyStrip b]) ∧
    parse_genotype (some (b ++ '|' :: a)) = some (pySort [pyStrip a, pyStrip b]) := by
  refine ⟨parse_append_slash a b ha hb, ?_, parse_append_bar a b ha ha2 hb hb2, ?_⟩
  · rw [parse_append_slash b a hb ha, pySort_pair_swap]
  · rw [parse_append_bar b a hb hb2 ha ha2, pySort_pair_swap]

/-- Witness for C6 at the tokens "B" and "A". -/
theorem parse_canonicalization_witness :
    parse_genotype (some (['B'] ++ '/' :: ['A'])) =
        some (pySort [pyStrip ['B'], pyStrip ['A']]) ∧
    parse_genotype (some (['A'] ++ '/' :: ['B'])) =
        some (pySort [pyStrip ['B'], pyStrip ['A']]) ∧
    parse_genotype (some (['B'] ++ '|' :: ['A'])) =
        some (pySort [pyStrip ['B'], pyStrip ['A']]) ∧
    parse_genotype (some (['A'] ++ '|' :: ['B'])) =
        some (pySort [pyStrip ['B'], pyStrip ['A']]) :=
  parse_canonicalization ['B'] ['A'] (by decide) (by decide) (by decide) (by decide)

/-- C7: a non-empty, non-all-whitespace string containing neither `/` nor
`|` falls through both split branches and parses, via the homozygous
fallback, to the pair of the trimmed string with itself. -/
theorem parse_homozygous_fallback (s : PyStr) (h0 : s ≠ [])
    (_hw : pyStrip s ≠ []) (h1 : '/' ∉ s) (h2 : '|' ∉ s) :
    parse_genotype (some s) = some [pyStrip s, pyStrip s] := by
  have hn1 : '/' ∉ pyStrip s := fun hm => h1 (mem_pyStrip hm)
  have hn2 : '|' ∉ pyStrip s := fun hm => h2 (mem_pyStrip hm)
  simp only [parse_genotype]
  rw [if_neg h0, if_neg hn1, if_neg hn2]
  simp only [List.map_cons, List.map_nil]
  rw [pyStrip_idem, pySort_pair_self]

/-- Witness for C7 at the spec's example "142". -/
theorem parse_homozygous_fallback_witness :
    parse_genotype (some ['1', '4', '2']) =
      some [pyStrip ['1', '4', '2'], pyStrip ['1', '4', '2']] :=
  parse_homozygous_fallback ['1', '4', '2'] (by decide) (by decide)
    (by decide) (by decide)

/-- C4: a common marker at which any of the three raw genotypes fails to
parse is skipped entirely by the loop step — the accumulator (testable,
consistent, inconsistent, marker details, exclusions) is unchanged —
while `total_common_markers` always counts every common marker. -/
theorem unparsable_marker_skipped (m f o : Profile) (acc : Accumulator)
    (k : MarkerID)
    (h : parse_genotype (m.get k) = none ∨ parse_genotype (f.get k) = none ∨
      parse_genotype (o.get k) = none) :
    stepMarker m f o acc k = acc ∧
    (computeResult m f o).total_common_markers = (commonMarkers m f o).length := by
  constructor
  · cases hm : parse_genotype (m.get k) <;> cases hf : parse_genotype (f.get k) <;>
      cases ho : parse_genotype (o.get k) <;> simp_all [stepMarker]
  · rfl

/-- Witness for C4: a marker whose mother cell is NaN is skipped. -/
theorem unparsable_marker_skipped_witness :
    stepMarker (⟨[(1, none)]⟩ : Profile) (⟨[(1, some ['A'])]⟩ : Profile)
        (⟨[(1, some ['A'])]⟩ : Profile) ⟨0, 0, 0, [], []⟩ 1 = ⟨0, 0, 0, [], []⟩ ∧
    (computeResult ⟨[(1, none)]⟩ ⟨[(1, some ['A'])]⟩
        ⟨[(1, some ['A'])]⟩).total_common_markers =
      (commonMarkers ⟨[(1, none)]⟩ ⟨[(1, some ['A'])]⟩
        ⟨[(1, some ['A'])]⟩).length :=
  unparsable_marker_skipped ⟨[(1, none)]⟩ ⟨[(1, some ['A'])]⟩
    ⟨[(1, some ['A'])]⟩ ⟨0, 0, 0, [], []⟩ 1 (Or.inl (by decide))

/-- C8: the consistency rate equals `consistent / testable * 100` whenever
`testable > 0` and is exactly 0 when `testable = 0` (the division is
guarded, so it is never evaluated at a zero denominator). -/
theorem consistency_rate_guarded (m f o : Profile) :
    ((computeResult m f o).testable_markers = 0 →
      (computeResult m f o).consistency_rate = 0) ∧
    (0 < (computeResult m f o).testable_markers →
      (computeResult m f o).consistency_rate =
        ((computeResult m f o).consistent_markers : ℚ) /
          ((computeResult m f o).testable_markers : ℚ) * 100) := by
  constructor <;> intro h <;> simp only [computeResult] at h ⊢ <;>
    split_ifs <;> simp_all

/-- Witness for C8: three empty profiles give zero testable markers and a
zero rate. -/
theorem consistency_rate_guarded_witness :
    (computeResult (⟨[]⟩ : Profile) ⟨[]⟩ ⟨[]⟩).consistency_rate = 0 :=
  (consistency_rate_guarded ⟨[]⟩ ⟨[]⟩ ⟨[]⟩).1 (by rfl)

/-- C9: `analyze_parentage` returns the null result precisely when one of
the three named profiles is not loaded, and in that case the analyzer
state (including its stored `analysis_results`) is left unchanged with no
partial result. -/
theorem missing_profile_no_analysis (a : Analyzer) (mName fName oName : String) :
    ((analyze_parentage a mName fName oName).2 = none ↔
      a.profiles.lookup mName = none ∨ a.profiles.lookup fName = none ∨
        a.profiles.lookup oName = none) ∧
    ((a.profiles.lookup mName = none ∨ a.profiles.lookup fName = none ∨
        a.profiles.lookup oName = none) →
      analyze_parentage a mName fName oName = (a, none)) := by
  unfold analyze_parentage
  cases hm : a.profiles.lookup mName <;> cases hf : a.profiles.lookup fName <;>
    cases ho : a.profiles.lookup oName <;> simp_all

/-- Witness for C9: an analyzer with no loaded profiles is unchanged and
gets the null result. -/
theorem missing_profile_no_analysis_witness :
    analyze_parentage (⟨[], none⟩ : Analyzer) "Mother" "Father" "Offspring" =
      ((⟨[], none⟩ : Analyzer), none) :=
  (missing_profile_no_analysis ⟨[], none⟩ "Mother" "Father" "Offspring").2
    (Or.inl rfl)

lemma stepMarker_inv (m f o : Profile) (k : MarkerID) {acc : Accumulator}
    (h : AccInv acc) : AccInv (stepMarker m f o acc k) := by
  unfold stepMarker
  cases parse_genotype (m.get k) <;> cases parse_genotype (f.get k) <;>
    cases parse_genotype (o.get k) <;> try exact h
  rename_i g1 g2 g3
  dsimp only
  obtain ⟨h1, h2, h3, h4⟩ := h
  split_ifs with hg hc
  · exact ⟨h1, h2, h3, h4⟩
  · refine ⟨by dsimp only; omega, by simp [h2], by simp [h3], ?_⟩
    intro e he
    simp only [List.append_nil] at he
    exact ⟨(h4 e he).1, by simp [(h4 e he).2]⟩
  · have hc' : check_mendelian_inheritance g1 g2 g3 = false := by
      simpa using hc
    refine ⟨by dsimp only; omega, by simp [h2], by simp [h3], ?_⟩
    intro e he
    simp only [List.mem_append, List.mem_singleton] at he
    rcases he with he | he
    · exact ⟨(h4 e he).1, by simp [(h4 e he).2]⟩
    · subst he
      exact ⟨hc', by simp⟩

lemma foldl_inv (m f o : Profile) (l : List MarkerID) :
    ∀ acc : Accumulator, AccInv acc → AccInv (l.foldl (stepMarker m f o) acc) := by
  induction l with
  | nil => exact fun acc h => h
  | cons k ks ih => exact fun acc h => ih _ (stepMarker_inv m f o k h)

lemma confidenceLevel_cases (i c : Nat) :
    confidenceLevel i c = "Very High" ∨ confidenceLevel i c = "High" ∨
      confidenceLevel i c = "Moderate" ∨ confidenceLevel i c = "Low" := by
  unfold confidenceLevel
  split_ifs <;> simp

lemma computeResult_inv (m f o : Profile) :
    (computeResult m f o).testable_markers =
        (computeResult m f o).consistent_markers +
          (computeResult m f o).inconsistent_markers ∧
    (computeResult m f o).marker_details.length =
        (computeResult m f o).testable_markers ∧
    (computeResult m f o).exclusions.length =
        (computeResult m f o).inconsistent_markers ∧
    (∀ e ∈ (computeResult m f o).exclusions,
      e.consistent = false ∧ e ∈ (computeResult m f o).marker_details) ∧
    ((computeResult m f o).confidence_level = "Very High" ∨
      (computeResult m f o).confidence_level = "High" ∨
      (computeResult m f o).confidence_level = "Moderate" ∨
      (computeResult m f o).confidence_level = "Low") := by
  have hinv := foldl_inv m f o (commonMarkers m f o) ⟨0, 0, 0, [], []⟩
    ⟨rfl, rfl, rfl, by simp⟩
  obtain ⟨h1, h2, h3, h4⟩ := hinv
  exact ⟨h1, h2, h3, h4, confidenceLevel_cases _ _⟩

/-- C10: every non-null result of `analyze_parentage` satisfies the
aggregate invariants: testable = consistent + inconsistent, the marker
details list has exactly the testable markers, the exclusions list has
exactly the inconsistent markers, every exclusion is a failed check that
also appears in the details, and the confidence level is one of the four
ladder values (never the initial "Unknown"). -/
theorem analysis_result_invariants (a : Analyzer) (mName fName oName : String)
    (r : AnalysisResult) (h : (analyze_parentage a mName fName oName).2 = some r) :
    r.testable_markers = r.consistent_markers + r.inconsistent_markers ∧
    r.marker_details.length = r.testable_markers ∧
    r.exclusions.length = r.inconsistent_markers ∧
    (∀ e ∈ r.exclusions, e.consistent = false ∧ e ∈ r.marker_details) ∧
    (r.confidence_level = "Very High" ∨ r.confidence_level = "High" ∨
      r.confidence_level = "Moderate" ∨ r.confidence_level = "Low") := by
  unfold analyze_parentage at h
  split at h
  · rename_i mp fp op hm hf ho
    simp only [Option.some.injEq] at h
    subst h
    exact computeResult_inv mp fp op
  · simp at h

/-- Witness for C10: a fully loaded analyzer over empty profiles yields a
result satisfying all the invariants. -/
theorem analysis_result_invariants_witness :
    (computeResult (⟨[]⟩ : Profile) ⟨[]⟩ ⟨[]⟩).testable_markers =
        (computeResult (⟨[]⟩ : Profile) ⟨[]⟩ ⟨[]⟩).consistent_markers +
          (computeResult (⟨[]⟩ : Profile) ⟨[]⟩ ⟨[]⟩).inconsistent_markers ∧
    (computeResult (⟨[]⟩ : Profile) ⟨[]⟩ ⟨[]⟩).marker_details.length =
        (computeResult (⟨[]⟩ : Profile) ⟨[]⟩ ⟨[]⟩).testable_markers ∧
    (computeResult (⟨[]⟩ : Profile) ⟨[]⟩ ⟨[]⟩).exclusions.length =
        (computeResult (⟨[]⟩ : Profile) ⟨[]⟩ ⟨[]⟩).inconsistent_markers ∧
    (∀ e ∈ (computeResult (⟨[]⟩ : Profile) ⟨[]⟩ ⟨[]⟩).exclusions,
      e.consistent = false ∧
        e ∈ (computeResult (⟨[]⟩ : Profile) ⟨[]⟩ ⟨[]⟩).marker_details) ∧
    ((computeResult (⟨[]⟩ : Profile) ⟨[]⟩ ⟨[]⟩).confidence_level = "Very High" ∨
      (computeResult (⟨[]⟩ : Profile) ⟨[]⟩ ⟨[]⟩).confidence_level = "High" ∨
      (computeResult (⟨[]⟩ : Profile) ⟨[]⟩ ⟨[]⟩).confidence_level = "Moderate" ∨
      (computeResult (⟨[]⟩ : Profile) ⟨[]⟩ ⟨[]⟩).confidence_level = "Low") :=
  analysis_result_invariants
    ⟨[("Mother", ⟨[]⟩), ("Father", ⟨[]⟩), ("Offspring", ⟨[]⟩)], none⟩
    "Mother" "Father" "Offspring" (computeResult ⟨[]⟩ ⟨[]⟩ ⟨[]⟩) rfl
